import Mathlib

/-!
Verification of the arkade tapscript engine (ArkLabsHQ/introspector).

The definitions below are a shallow embedding of the Go sources:
`pkg/arkade/asset_opcodes.go` (asset introspection opcodes),
the engine file (`verifyWitnessProgram`, `CheckErrorCondition`, `Step`
stack-limit check, `tallysigOp`, `newTaprootExecutionCtx`,
`isAnnexedWitness`) and the asset data model file.

Bytes are modelled as `Nat` values below 256, byte strings as `List Nat`,
`uint64` arithmetic as `Nat` arithmetic with explicit reduction modulo
`2 ^ 64`, and fallible operations return `Except ScriptError`.

The signature verifier (`parseTaprootSigAndPubKey`,
`newTaprootSigVerifier`, `taprootSigVerifier.verifySig`,
`baseTapscriptSigVerifier.Verify`, `newBaseTapscriptSigVerifier`) is
embedded from its source file, with the external btcec/schnorr and
`txscript.CalcTaprootSignatureHash` library functions as parameters.
Parts of the repository that the claims depend on but whose source is not
available (the stack / script-number primitives from the btcd fork and
the wire witness serialization) are modelled from the specification; each
such definition carries a `Modelled from the spec:` doc comment.
-/

set_option autoImplicit false

namespace Introspector

/-! ## Little-endian byte encodings -/

/-- Fixed-width little-endian encoding of a natural number into `k` bytes
(`binary.LittleEndian.PutUint64` and friends). -/
def leBytes : Nat → Nat → List Nat
  | 0, _ => []
  | k + 1, v => v % 256 :: leBytes k (v / 256)

/-- `pushLE64`'s byte image: 8-byte little-endian encoding of a `uint64`. -/
def le64 (v : Nat) : List Nat := leBytes 8 v

/-- 4-byte little-endian encoding of a `uint32`. -/
def le32 (v : Nat) : List Nat := leBytes 4 v

/-- Value of a little-endian byte string. -/
def leToNat : List Nat → Nat
  | [] => 0
  | b :: bs => b + 256 * leToNat bs

theorem leToNat_leBytes (k v : Nat) (h : v < 256 ^ k) :
    leToNat (leBytes k v) = v := by
  induction k generalizing v with
  | zero => simp [leBytes, leToNat]; omega
  | succ k ih =>
      simp only [leBytes, leToNat]
      rw [ih (v / 256) (by
        have : 256 ^ (k + 1) = 256 ^ k * 256 := by ring
        omega)]
      omega

theorem leBytes_injOn (k v w : Nat) (hv : v < 256 ^ k) (hw : w < 256 ^ k)
    (h : leBytes k v = leBytes k w) : v = w := by
  have h1 := leToNat_leBytes k v hv
  have h2 := leToNat_leBytes k w hw
  rw [h] at h1
  omega

theorem leBytes_length (k v : Nat) : (leBytes k v).length = k := by
  induction k generalizing v with
  | zero => rfl
  | succ k ih => simp [leBytes, ih]

/-! ## Script numbers

Modelled from the spec (§3.3): script integers are little-endian
sign-magnitude, minimally encoded, at most 4 bytes when decoded from the
stack.  The stack / script-number primitives come from the btcd fork and
are not among the provided source files. -/

/-- Fuelled digit extraction (structural recursion so that concrete
instances reduce in the kernel). -/
def natToLEAux : Nat → Nat → List Nat
  | 0, _ => []
  | fuel + 1, n => if n = 0 then [] else n % 256 :: natToLEAux fuel (n / 256)

/-- Little-endian magnitude bytes of a natural number (empty for zero). -/
def natToLE (n : Nat) : List Nat := natToLEAux n n

theorem natToLEAux_zero (f : Nat) : natToLEAux f 0 = [] := by
  cases f <;> simp [natToLEAux]

theorem natToLEAux_fuel (f : Nat) : ∀ g n, n ≤ f → n ≤ g →
    natToLEAux f n = natToLEAux g n := by
  induction f with
  | zero =>
      intro g n hf _
      have : n = 0 := by omega
      subst this
      simp [natToLEAux_zero]
  | succ f ih =>
      intro g n hf hg
      by_cases h : n = 0
      · subst h; simp [natToLEAux_zero]
      · obtain ⟨g', rfl⟩ : ∃ g', g = g' + 1 := ⟨g - 1, by omega⟩
        simp only [natToLEAux, if_neg h]
        have hdiv : n / 256 < n := Nat.div_lt_self (Nat.pos_of_ne_zero h) (by omega)
        rw [ih g' (n / 256) (by omega) (by omega)]

theorem natToLE_unfold (n : Nat) (h : n ≠ 0) :
    natToLE n = n % 256 :: natToLE (n / 256) := by
  obtain ⟨m, rfl⟩ : ∃ m, n = m + 1 := ⟨n - 1, by omega⟩
  show natToLEAux (m + 1) (m + 1) = _
  simp only [natToLEAux, if_neg h]
  have hdiv : (m + 1) / 256 < m + 1 := Nat.div_lt_self (by omega) (by omega)
  rw [natToLEAux_fuel m ((m + 1) / 256) ((m + 1) / 256) (by omega) (le_refl _)]
  rfl

theorem leToNat_natToLE (n : Nat) : leToNat (natToLE n) = n := by
  induction n using Nat.strong_induction_on with
  | _ n ih =>
      by_cases h : n = 0
      · subst h; rfl
      · rw [natToLE_unfold n h]
        simp only [leToNat]
        have hdiv : n / 256 < n := Nat.div_lt_self (Nat.pos_of_ne_zero h) (by omega)
        rw [ih (n / 256) hdiv]
        omega

theorem natToLE_length (k : Nat) : ∀ n, n < 256 ^ k → (natToLE n).length ≤ k := by
  induction k with
  | zero =>
      intro n h
      have : n = 0 := by simpa using h
      subst this; simp [natToLE, natToLEAux]
  | succ k ih =>
      intro n h
      by_cases hz : n = 0
      · subst hz; simp [natToLE, natToLEAux]
      · rw [natToLE_unfold n hz]
        simp only [List.length_cons]
        have : n / 256 < 256 ^ k := by
          have h2 : 256 ^ (k + 1) = 256 ^ k * 256 := by ring
          omega
        have := ih (n / 256) this
        omega

theorem natToLE_getLast? (n : Nat) (h : n ≠ 0) :
    ∃ b, (natToLE n).getLast? = some b ∧ b ≠ 0 ∧ b < 256 := by
  induction n using Nat.strong_induction_on with
  | _ n ih =>
      rw [natToLE_unfold n h]
      by_cases hq : n / 256 = 0
      · have hlt : n < 256 := by omega
        rw [hq, natToLE]
        refine ⟨n % 256, rfl, ?_, ?_⟩
        · omega
        · exact Nat.mod_lt _ (by omega)
      · have hdiv : n / 256 < n := Nat.div_lt_self (Nat.pos_of_ne_zero h) (by omega)
        obtain ⟨b, hb, hb0, hb256⟩ := ih (n / 256) hdiv hq
        refine ⟨b, ?_, hb0, hb256⟩
        have hne : natToLE (n / 256) ≠ [] := by
          intro hcon
          rw [hcon] at hb
          simp at hb
        obtain ⟨c, l, hl⟩ : ∃ c l, natToLE (n / 256) = c :: l := by
          cases hnl : natToLE (n / 256) with
          | nil => exact absurd hnl hne
          | cons c l => exact ⟨c, l, rfl⟩
        rw [hl] at hb ⊢
        rw [List.getLast?_cons_cons]
        exact hb

theorem leToNat_append (l : List Nat) (b : Nat) :
    leToNat (l ++ [b]) = leToNat l + 256 ^ l.length * b := by
  induction l with
  | nil => simp [leToNat]
  | cons a l ih =>
      simp only [List.cons_append, leToNat, List.length_cons]
      rw [show l ++ [b] = l.append [b] from rfl] at ih
      rw [ih]
      ring

/-- Modelled from the spec: serialization of a script number
(little-endian sign-magnitude; a sign-padding byte is appended when the
top magnitude byte already has its high bit set). -/
def scriptNumEncode (n : Int) : List Nat :=
  if n = 0 then []
  else
    let mag := natToLE n.natAbs
    if 128 ≤ mag.getLastD 0 then
      mag ++ [if n < 0 then 128 else 0]
    else if n < 0 then
      mag.dropLast ++ [mag.getLastD 0 + 128]
    else mag

/-- Modelled from the spec: the minimal-encoding check applied when a
script number is popped (the top byte may only be `0x00`/`0x80` when the
preceding byte has its high bit set). -/
def minimallyEncoded (bs : List Nat) : Bool :=
  match bs.getLast? with
  | none => true
  | some last =>
      if last % 128 ≠ 0 then true
      else
        match bs.dropLast.getLast? with
        | none => false
        | some prev => 128 ≤ prev

/-- Modelled from the spec: raw value of a script-number byte string
(sign carried by the high bit of the most significant byte). -/
def scriptNumRawDecode (bs : List Nat) : Int :=
  match bs.getLast? with
  | none => 0
  | some last =>
      let mag : Nat := leToNat (bs.dropLast ++ [last % 128])
      if 128 ≤ last then -(mag : Int) else (mag : Int)

/-! ## Errors

The engine raises `scriptError(code, description)` values built from the
btcd txscript error codes.  The spec's error taxonomy (§7) names such as
`AssetPacketMissing` correspond to specific `(code, description)` pairs
raised by the source; the embedding keeps both components so the kinds
stay distinguishable. -/

inductive ErrCode where
  | invalidIndex
  | invalidStackOperation
  | numberTooBig
  | minimalData
  | stackOverflow
  | elementTooBig
  | taprootMaxSigOps
  | witnessProgramEmpty
  | discourageUpgradeableTaprootVersion
  | scriptUnfinished
  | cleanStack
  | emptyStack
  | evalFalse
  | engineOnlyTaproot
  | keySpendVerifyFailed
  | controlBlockParse
  | leafCommitment
  | scriptParse
  | taprootPubkeyIsEmpty
  | discourageUpgradeablePubkeyType
  | invalidTaprootSigLen
  deriving DecidableEq, Repr

structure ScriptError where
  code : ErrCode
  desc : String
  deriving DecidableEq, Repr

/-- `checkAssetPacket`'s error: the spec calls this kind
`AssetPacketMissing`; the source realizes it as
`scriptError(txscript.ErrInvalidIndex, "asset packet not set")`. -/
def assetPacketMissingErr : ScriptError :=
  ⟨.invalidIndex, "asset packet not set"⟩

/-- `checkGroupIndex`'s error (spec kind `AssetIndexOutOfRange`). -/
def assetGroupIndexErr : ScriptError :=
  ⟨.invalidIndex, "asset group index out of range"⟩

def errNumberTooBig : ScriptError :=
  ⟨.numberTooBig, "script number longer than 4 bytes"⟩

def errMinimalData : ScriptError :=
  ⟨.minimalData, "non-minimally encoded script number"⟩

def errStackUnderflow : ScriptError :=
  ⟨.invalidStackOperation, "stack underflow"⟩

/-- Modelled from the spec: `makeScriptNum` with maximum length 4 and
minimal-encoding enforcement, as invoked by the stack `PopInt`. -/
def makeScriptNum (bs : List Nat) : Except ScriptError Int :=
  if bs.length > 4 then .error errNumberTooBig
  else if ¬ minimallyEncoded bs then .error errMinimalData
  else .ok (scriptNumRawDecode bs)

/-! ### Script-number round trip -/

theorem scriptNumEncode_natCast (n : Nat) (hn : n ≠ 0) :
    scriptNumEncode (n : Int) =
      (if 128 ≤ (natToLE n).getLastD 0
        then natToLE n ++ [0] else natToLE n) := by
  have h0 : (n : Int) ≠ 0 := by exact_mod_cast hn
  have hneg : ¬ ((n : Int) < 0) := not_lt.mpr (Int.natCast_nonneg n)
  simp only [scriptNumEncode, if_neg h0, Int.natAbs_ofNat]
  by_cases hp : 128 ≤ (natToLE n).getLastD 0
  · simp [hp, hneg]
  · simp [hp, hneg]

theorem makeScriptNum_roundtrip (n : Nat) (h : n < 2 ^ 31) :
    makeScriptNum (scriptNumEncode (n : Int)) = .ok (n : Int) := by
  by_cases hn : n = 0
  · subst hn
    simp [scriptNumEncode, makeScriptNum, minimallyEncoded, scriptNumRawDecode]
  · obtain ⟨b, hb, hb0, hb256⟩ := natToLE_getLast? n hn
    have hmagne : natToLE n ≠ [] := by
      intro hcon; rw [hcon] at hb; simp at hb
    have hlastD : (natToLE n).getLastD 0 = b := by
      rw [List.getLastD_eq_getLast? 0 (natToLE n), hb]; rfl
    have hval : leToNat (natToLE n) = n := leToNat_natToLE n
    have hdrop : (natToLE n).dropLast ++ [b] = natToLE n :=
      List.dropLast_append_getLast? b hb
    have hlen : (natToLE n).length ≤ 4 :=
      natToLE_length 4 n (by norm_num at h ⊢; omega)
    rw [scriptNumEncode_natCast n hn]
    by_cases hp : 128 ≤ (natToLE n).getLastD 0
    · -- padding byte appended
      rw [if_pos hp]
      rw [hlastD] at hp
      -- the magnitude takes at most 3 bytes here
      have hlen3 : (natToLE n).length ≤ 3 := by
        by_contra hcon
        have h4 : (natToLE n).length = 4 := by omega
        have : leToNat ((natToLE n).dropLast ++ [b]) =
            leToNat (natToLE n).dropLast + 256 ^ (natToLE n).dropLast.length * b :=
          leToNat_append _ b
        rw [hdrop] at this
        have hdl : (natToLE n).dropLast.length = 3 := by
          have := List.length_dropLast (natToLE n)
          omega
        rw [hdl, hval] at this
        have : 256 ^ 3 * 128 ≤ n := by
          calc 256 ^ 3 * 128 ≤ 256 ^ 3 * b := by
                exact Nat.mul_le_mul_left _ hp
            _ ≤ leToNat (natToLE n).dropLast + 256 ^ 3 * b := by omega
            _ = n := this.symm
        norm_num at this h
        omega
      have hlast : (natToLE n ++ [0]).getLast? = some 0 := by
        simp
      have hdl2 : (natToLE n ++ [0]).dropLast = natToLE n := by
        simp
      simp only [makeScriptNum]
      rw [if_neg (by simp; omega)]
      rw [if_neg (by
        simp only [minimallyEncoded, hlast, hdl2, hb]
        norm_num
        omega)]
      simp only [scriptNumRawDecode, hlast, hdl2]
      rw [show (0 : Nat) % 128 = 0 from rfl]
      rw [leToNat_append, hval]
      simp
    · -- no padding byte
      rw [if_neg hp]
      rw [hlastD] at hp
      have hb128 : b < 128 := by omega
      have hbmod : b % 128 = b := Nat.mod_eq_of_lt hb128
      simp only [makeScriptNum]
      rw [if_neg (by omega)]
      rw [if_neg (by
        simp only [minimallyEncoded, hb, hbmod]
        simp [hb0])]
      simp only [scriptNumRawDecode, hb, hbmod, hdrop, hval]
      rw [if_neg (by omega)]

/-! ## Asset packet data model (embedding of the asset model source file) -/

/-- `AssetInputTypeLocal` (the byte value pushed by the opcodes). -/
def AssetInputTypeLocal : Nat := 1

/-- `AssetInputTypeIntent`. -/
def AssetInputTypeIntent : Nat := 2

/-- `AssetOutputTypeLocal`. -/
def AssetOutputTypeLocal : Nat := 1

/-- `AssetOutputTypeIntent`. -/
def AssetOutputTypeIntent : Nat := 2

/-- `AssetID`: genesis txid (32 bytes) and group index (`uint16`). -/
structure AssetID where
  txid : List Nat
  gidx : Nat
  deriving DecidableEq, Repr

instance : Inhabited AssetID := ⟨⟨[], 0⟩⟩

/-- `AssetInput` (the `Type` byte selects which fields are meaningful). -/
structure AssetInput where
  type : Nat
  inputIndex : Nat
  txid : List Nat
  outputIndex : Nat
  amount : Nat
  deriving DecidableEq, Repr

instance : Inhabited AssetInput := ⟨⟨0, 0, [], 0, 0⟩⟩

/-- `AssetOutput`. -/
structure AssetOutput where
  type : Nat
  outputIndex : Nat
  amount : Nat
  deriving DecidableEq, Repr

instance : Inhabited AssetOutput := ⟨⟨0, 0, 0⟩⟩

/-- `AssetGroup`. -/
structure AssetGroup where
  assetID : AssetID
  control : Option AssetID
  metadataHash : List Nat
  inputs : List AssetInput
  outputs : List AssetOutput
  deriving DecidableEq, Repr

instance : Inhabited AssetGroup := ⟨⟨default, none, [], [], []⟩⟩

/-- `InputAssetEntry`. -/
structure InputAssetEntry where
  assetID : AssetID
  amount : Nat
  deriving DecidableEq, Repr

instance : Inhabited InputAssetEntry := ⟨⟨default, 0⟩⟩

/-- `OutputAssetEntry`. -/
structure OutputAssetEntry where
  assetID : AssetID
  amount : Nat
  deriving DecidableEq, Repr

instance : Inhabited OutputAssetEntry := ⟨⟨default, 0⟩⟩

/-- `AssetPacket`.  The Go maps keyed by `uint32` yield the empty slice on
an absent key, so they are embedded as total functions. -/
structure AssetPacket where
  groups : List AssetGroup
  inputAssets : Nat → List InputAssetEntry
  outputAssets : Nat → List OutputAssetEntry

/-! ## Engine state used by the asset opcodes -/

/-- The engine fields the asset opcodes touch: the attached packet (Go
`nil` is `none`) and the primary data stack, head = top of stack. -/
structure Engine where
  assetPacket : Option AssetPacket
  dstack : List (List Nat)

/-- Modelled from the spec: stack push of a raw byte string
(`dstack.PushByteArray`; the stack source is not among the provided
files). -/
def Engine.pushByteArray (vm : Engine) (b : List Nat) : Engine :=
  { vm with dstack := b :: vm.dstack }

/-- Modelled from the spec: stack push of a script number
(`dstack.PushInt`). -/
def Engine.pushInt (vm : Engine) (n : Int) : Engine :=
  vm.pushByteArray (scriptNumEncode n)

/-- Modelled from the spec: stack pop of a raw byte string
(`dstack.PopByteArray`). -/
def Engine.popByteArray (vm : Engine) : Except ScriptError (List Nat × Engine) :=
  match vm.dstack with
  | [] => .error errStackUnderflow
  | b :: rest => .ok (b, { vm with dstack := rest })

/-- Modelled from the spec: stack pop of a script number
(`dstack.PopInt`, which decodes with `makeScriptNum`). -/
def Engine.popInt (vm : Engine) : Except ScriptError (Int × Engine) := do
  let (b, vm₁) ← vm.popByteArray
  let n ← makeScriptNum b
  .ok (n, vm₁)

/-! ## Asset introspection opcodes (`asset_opcodes.go`) -/

/-- `checkAssetPacket`; it also yields the packet, which the Go code reads
back from the engine field after the check succeeds. -/
def checkAssetPacket (vm : Engine) : Except ScriptError AssetPacket :=
  match vm.assetPacket with
  | none => .error assetPacketMissingErr
  | some p => .ok p

/-- `checkGroupIndex`. -/
def checkGroupIndex (p : AssetPacket) (k : Int) : Except ScriptError Unit :=
  if k < 0 ∨ (p.groups.length : Int) ≤ k then .error assetGroupIndexErr
  else .ok ()

/-- `pushAssetID`: txid bytes, then the group index as a script number
(which thus ends on top of the stack). -/
def pushAssetID (vm : Engine) (id : AssetID) : Engine :=
  (vm.pushByteArray id.txid).pushInt id.gidx

/-- `pushLE64`. -/
def pushLE64 (vm : Engine) (v : Nat) : Engine :=
  vm.pushByteArray (le64 v)

/-- `popAssetID`: pops the group index then the txid; the index is
truncated to `uint16`. -/
def popAssetID (vm : Engine) : Except ScriptError (AssetID × Engine) := do
  let (gidx, vm₁) ← vm.popInt
  let (txidBytes, vm₂) ← vm₁.popByteArray
  if txidBytes.length ≠ 32 then
    .error ⟨.invalidStackOperation, "asset ID txid must be 32 bytes"⟩
  else
    .ok (⟨txidBytes, (gidx % 65536).toNat⟩, vm₂)

/-- `opcodeInspectNumAssetGroups`. -/
def opcodeInspectNumAssetGroups (vm : Engine) : Except ScriptError Engine := do
  let p ← checkAssetPacket vm
  .ok (vm.pushInt p.groups.length)

/-- `opcodeInspectAssetGroupAssetID`. -/
def opcodeInspectAssetGroupAssetID (vm : Engine) : Except ScriptError Engine := do
  let p ← checkAssetPacket vm
  let (k, vm₁) ← vm.popInt
  let () ← checkGroupIndex p k
  .ok (pushAssetID vm₁ (p.groups.getD k.toNat default).assetID)

/-- `opcodeInspectAssetGroupCtrl`. -/
def opcodeInspectAssetGroupCtrl (vm : Engine) : Except ScriptError Engine := do
  let p ← checkAssetPacket vm
  let (k, vm₁) ← vm.popInt
  let () ← checkGroupIndex p k
  match (p.groups.getD k.toNat default).control with
  | none => .ok (vm₁.pushInt (-1))
  | some ctrl => .ok (pushAssetID vm₁ ctrl)

/-- The scan in `opcodeFindAssetGroupByAssetID`: index of the first group
whose id has the same txid and group index. -/
def findGroupIdx (groups : List AssetGroup) (id : AssetID) : Option Nat :=
  match groups with
  | [] => none
  | g :: rest =>
      if g.assetID.txid = id.txid ∧ g.assetID.gidx = id.gidx then some 0
      else (findGroupIdx rest id).map (· + 1)

/-- `opcodeFindAssetGroupByAssetID`. -/
def opcodeFindAssetGroupByAssetID (vm : Engine) : Except ScriptError Engine := do
  let p ← checkAssetPacket vm
  let (id, vm₁) ← popAssetID vm
  match findGroupIdx p.groups id with
  | some i => .ok (vm₁.pushInt i)
  | none => .ok (vm₁.pushInt (-1))

/-- `opcodeInspectAssetGroupMetadataHash`. -/
def opcodeInspectAssetGroupMetadataHash (vm : Engine) :
    Except ScriptError Engine := do
  let p ← checkAssetPacket vm
  let (k, vm₁) ← vm.popInt
  let () ← checkGroupIndex p k
  .ok (vm₁.pushByteArray (p.groups.getD k.toNat default).metadataHash)

def invalidSourceNumErr : ScriptError :=
  ⟨.invalidIndex, "invalid source for OP_INSPECTASSETGROUPNUM"⟩

def invalidSourceGroupErr : ScriptError :=
  ⟨.invalidIndex, "invalid source for OP_INSPECTASSETGROUP"⟩

def invalidSourceSumErr : ScriptError :=
  ⟨.invalidIndex, "invalid source for OP_INSPECTASSETGROUPSUM"⟩

/-- `opcodeInspectAssetGroupNum`. -/
def opcodeInspectAssetGroupNum (vm : Engine) : Except ScriptError Engine := do
  let p ← checkAssetPacket vm
  let (source, vm₁) ← vm.popInt
  let (k, vm₂) ← vm₁.popInt
  let () ← checkGroupIndex p k
  let group := p.groups.getD k.toNat default
  if source = 0 then .ok (vm₂.pushInt group.inputs.length)
  else if source = 1 then .ok (vm₂.pushInt group.outputs.length)
  else if source = 2 then
    .ok ((vm₂.pushInt group.inputs.length).pushInt group.outputs.length)
  else .error invalidSourceNumErr

def assetGroupInputRangeErr : ScriptError :=
  ⟨.invalidIndex, "asset group input index out of range"⟩

def assetGroupOutputRangeErr : ScriptError :=
  ⟨.invalidIndex, "asset group output index out of range"⟩

/-- `opcodeInspectAssetGroup`. -/
def opcodeInspectAssetGroup (vm : Engine) : Except ScriptError Engine := do
  let p ← checkAssetPacket vm
  let (source, vm₁) ← vm.popInt
  let (j, vm₂) ← vm₁.popInt
  let (k, vm₃) ← vm₂.popInt
  let () ← checkGroupIndex p k
  let group := p.groups.getD k.toNat default
  if source = 0 then
    if j < 0 ∨ (group.inputs.length : Int) ≤ j then
      .error assetGroupInputRangeErr
    else
      let inp := group.inputs.getD j.toNat default
      let vm₄ := vm₃.pushInt inp.type
      let vm₅ :=
        if inp.type = AssetInputTypeLocal then vm₄.pushInt inp.inputIndex
        else (vm₄.pushByteArray inp.txid).pushInt inp.outputIndex
      .ok (pushLE64 vm₅ inp.amount)
  else if source = 1 then
    if j < 0 ∨ (group.outputs.length : Int) ≤ j then
      .error assetGroupOutputRangeErr
    else
      let out := group.outputs.getD j.toNat default
      .ok (pushLE64 ((vm₃.pushInt out.type).pushInt out.outputIndex) out.amount)
  else .error invalidSourceGroupErr

/-- The running `uint64` sums of `opcodeInspectAssetGroupSum`: each
`+=` wraps modulo `2 ^ 64`. -/
def sumAmounts64 (amounts : List Nat) : Nat :=
  amounts.foldl (fun acc a => (acc + a) % 2 ^ 64) 0

/-- `opcodeInspectAssetGroupSum`. -/
def opcodeInspectAssetGroupSum (vm : Engine) : Except ScriptError Engine := do
  let p ← checkAssetPacket vm
  let (source, vm₁) ← vm.popInt
  let (k, vm₂) ← vm₁.popInt
  let () ← checkGroupIndex p k
  let group := p.groups.getD k.toNat default
  let inSum := sumAmounts64 (group.inputs.map (·.amount))
  let outSum := sumAmounts64 (group.outputs.map (·.amount))
  if source = 0 then .ok (pushLE64 vm₂ inSum)
  else if source = 1 then .ok (pushLE64 vm₂ outSum)
  else if source = 2 then .ok (pushLE64 (pushLE64 vm₂ inSum) outSum)
  else .error invalidSourceSumErr

/-- `opcodeInspectOutAssetCount` (no range check: an absent output index
yields the empty entry list). -/
def opcodeInspectOutAssetCount (vm : Engine) : Except ScriptError Engine := do
  let p ← checkAssetPacket vm
  let (o, vm₁) ← vm.popInt
  let entries := p.outputAssets (o % 4294967296).toNat
  .ok (vm₁.pushInt entries.length)

def outAssetRangeErr : ScriptError :=
  ⟨.invalidIndex, "output asset index out of range"⟩

/-- `opcodeInspectOutAssetAt`. -/
def opcodeInspectOutAssetAt (vm : Engine) : Except ScriptError Engine := do
  let p ← checkAssetPacket vm
  let (t, vm₁) ← vm.popInt
  let (o, vm₂) ← vm₁.popInt
  let entries := p.outputAssets (o % 4294967296).toNat
  if t < 0 ∨ (entries.length : Int) ≤ t then .error outAssetRangeErr
  else
    let entry := entries.getD t.toNat default
    .ok (pushLE64 (pushAssetID vm₂ entry.assetID) entry.amount)

/-- The scan in `opcodeInspectOutAssetLookup`. -/
def lookupOutAmount (entries : List OutputAssetEntry) (id : AssetID) :
    Option Nat :=
  match entries with
  | [] => none
  | e :: rest =>
      if e.assetID.txid = id.txid ∧ e.assetID.gidx = id.gidx then some e.amount
      else lookupOutAmount rest id

/-- `opcodeInspectOutAssetLookup`. -/
def opcodeInspectOutAssetLookup (vm : Engine) : Except ScriptError Engine := do
  let p ← checkAssetPacket vm
  let (id, vm₁) ← popAssetID vm
  let (o, vm₂) ← vm₁.popInt
  let entries := p.outputAssets (o % 4294967296).toNat
  match lookupOutAmount entries id with
  | some amt => .ok (pushLE64 vm₂ amt)
  | none => .ok (vm₂.pushInt (-1))

/-- `opcodeInspectInAssetCount`. -/
def opcodeInspectInAssetCount (vm : Engine) : Except ScriptError Engine := do
  let p ← checkAssetPacket vm
  let (i, vm₁) ← vm.popInt
  let entries := p.inputAssets (i % 4294967296).toNat
  .ok (vm₁.pushInt entries.length)

def inAssetRangeErr : ScriptError :=
  ⟨.invalidIndex, "input asset index out of range"⟩

/-- `opcodeInspectInAssetAt`. -/
def opcodeInspectInAssetAt (vm : Engine) : Except ScriptError Engine := do
  let p ← checkAssetPacket vm
  let (t, vm₁) ← vm.popInt
  let (i, vm₂) ← vm₁.popInt
  let entries := p.inputAssets (i % 4294967296).toNat
  if t < 0 ∨ (entries.length : Int) ≤ t then .error inAssetRangeErr
  else
    let entry := entries.getD t.toNat default
    .ok (pushLE64 (pushAssetID vm₂ entry.assetID) entry.amount)

/-- The scan in `opcodeInspectInAssetLookup`. -/
def lookupInAmount (entries : List InputAssetEntry) (id : AssetID) :
    Option Nat :=
  match entries with
  | [] => none
  | e :: rest =>
      if e.assetID.txid = id.txid ∧ e.assetID.gidx = id.gidx then some e.amount
      else lookupInAmount rest id

/-- `opcodeInspectInAssetLookup`. -/
def opcodeInspectInAssetLookup (vm : Engine) : Except ScriptError Engine := do
  let p ← checkAssetPacket vm
  let (id, vm₁) ← popAssetID vm
  let (i, vm₂) ← vm₁.popInt
  let entries := p.inputAssets (i % 4294967296).toNat
  match lookupInAmount entries id with
  | some amt => .ok (pushLE64 vm₂ amt)
  | none => .ok (vm₂.pushInt (-1))

/-- `opcodeInspectGroupIntentOutCount`: count of Intent-typed outputs. -/
def opcodeInspectGroupIntentOutCount (vm : Engine) :
    Except ScriptError Engine := do
  let p ← checkAssetPacket vm
  let (k, vm₁) ← vm.popInt
  let () ← checkGroupIndex p k
  let count := ((p.groups.getD k.toNat default).outputs.filter
      (fun out => out.type == AssetOutputTypeIntent)).length
  .ok (vm₁.pushInt count)

def intentOutRangeErr : ScriptError :=
  ⟨.invalidIndex, "intent output index out of range"⟩

def intentInRangeErr : ScriptError :=
  ⟨.invalidIndex, "intent input index out of range"⟩

/-- The scan in `opcodeInspectGroupIntentOut`: the Intent-typed output
with running index `j` (never found when `j` is negative, as in the
source loop). -/
def findIntentOut (outs : List AssetOutput) (j : Int) : Option AssetOutput :=
  match outs with
  | [] => none
  | o :: rest =>
      if o.type = AssetOutputTypeIntent then
        if j = 0 then some o else findIntentOut rest (j - 1)
      else findIntentOut rest j

/-- `opcodeInspectGroupIntentOut`. -/
def opcodeInspectGroupIntentOut (vm : Engine) : Except ScriptError Engine := do
  let p ← checkAssetPacket vm
  let (j, vm₁) ← vm.popInt
  let (k, vm₂) ← vm₁.popInt
  let () ← checkGroupIndex p k
  match findIntentOut (p.groups.getD k.toNat default).outputs j with
  | some out => .ok (pushLE64 (vm₂.pushInt out.outputIndex) out.amount)
  | none => .error intentOutRangeErr

/-- `opcodeInspectGroupIntentInCount`. -/
def opcodeInspectGroupIntentInCount (vm : Engine) :
    Except ScriptError Engine := do
  let p ← checkAssetPacket vm
  let (k, vm₁) ← vm.popInt
  let () ← checkGroupIndex p k
  let count := ((p.groups.getD k.toNat default).inputs.filter
      (fun inp => inp.type == AssetInputTypeIntent)).length
  .ok (vm₁.pushInt count)

/-- The scan in `opcodeInspectGroupIntentIn`. -/
def findIntentIn (inps : List AssetInput) (j : Int) : Option AssetInput :=
  match inps with
  | [] => none
  | i :: rest =>
      if i.type = AssetInputTypeIntent then
        if j = 0 then some i else findIntentIn rest (j - 1)
      else findIntentIn rest j

/-- `opcodeInspectGroupIntentIn`. -/
def opcodeInspectGroupIntentIn (vm : Engine) : Except ScriptError Engine := do
  let p ← checkAssetPacket vm
  let (j, vm₁) ← vm.popInt
  let (k, vm₂) ← vm₁.popInt
  let () ← checkGroupIndex p k
  match findIntentIn (p.groups.getD k.toNat default).inputs j with
  | some inp =>
      .ok (pushLE64 ((vm₂.pushByteArray inp.txid).pushInt inp.outputIndex)
        inp.amount)
  | none => .error intentInRangeErr

/-! ## Taproot execution (engine source file) -/

/-- `sigOpsDelta`: starting budget and per-signature decrease. -/
def sigOpsDelta : Int := 50

/-- `blankCodeSepValue` (`math.MaxUint32`). -/
def blankCodeSepValue : Nat := 4294967295

/-- `txscript.MaxStackSize`. -/
def maxStackSize : Nat := 1000

/-- `txscript.MaxScriptElementSize`. -/
def maxScriptElementSize : Nat := 520

/-- `txscript.BaseLeafVersion` (0xc0). -/
def baseLeafVersion : Nat := 192

/-- `txscript.TaprootAnnexTag` (0x50). -/
def taprootAnnexTag : Nat := 80

/-- `payToTaprootDataSize`. -/
def payToTaprootDataSize : Nat := 32

/-- `txscript.TaprootWitnessVersion`. -/
def taprootWitnessVersion : Nat := 1

/-- `taprootExecutionCtx`. -/
structure TaprootExecutionCtx where
  annex : Option (List Nat)
  codeSepPos : Nat
  tapLeafHash : List Nat
  sigOpsBudget : Int
  mustSucceed : Bool
  deriving DecidableEq, Repr

/-- `newTaprootExecutionCtx` (zero-valued fields keep their Go zero
values: no annex, all-zero leaf hash, `mustSucceed = false`). -/
def newTaprootExecutionCtx (inputWitnessSize : Int) : TaprootExecutionCtx :=
  { annex := none
    codeSepPos := blankCodeSepValue
    tapLeafHash := List.replicate 32 0
    sigOpsBudget := sigOpsDelta + inputWitnessSize
    mustSucceed := false }

def taprootMaxSigOpsErr : ScriptError := ⟨.taprootMaxSigOps, ""⟩

/-- `tallysigOp`: decrement the budget by `sigOpsDelta`; below zero is an
error. -/
def tallysigOp (t : TaprootExecutionCtx) :
    Except ScriptError TaprootExecutionCtx :=
  if t.sigOpsBudget - sigOpsDelta < 0 then .error taprootMaxSigOpsErr
  else .ok { t with sigOpsBudget := t.sigOpsBudget - sigOpsDelta }

/-- Modelled from the spec: `wire` varint serialized size (the wire
package is an external dependency). -/
def varIntSerializeSize (n : Nat) : Nat :=
  if n < 253 then 1
  else if n ≤ 65535 then 3
  else if n ≤ 4294967295 then 5
  else 9

/-- Modelled from the spec: `wire.TxWitness.SerializeSize` — varint
element count plus, per element, a varint length prefix and the bytes. -/
def witnessSerializeSize (w : List (List Nat)) : Nat :=
  varIntSerializeSize w.length +
    (w.map (fun e => varIntSerializeSize e.length + e.length)).sum

/-- `isAnnexedWitness`: a witness of at least two elements whose final
element is nonempty and starts with the annex tag. -/
def isAnnexedWitness (witness : List (List Nat)) : Bool :=
  if witness.length < 2 then false
  else
    let lastElement := witness.getLastD []
    !lastElement.isEmpty && lastElement.headD 0 == taprootAnnexTag

def witnessHasNoAnnexErr : ScriptError := ⟨.invalidIndex, "witness has no annex"⟩

/-- `extractAnnex`: the whole final witness element. -/
def extractAnnex (witness : List (List Nat)) :
    Except ScriptError (List Nat) :=
  if isAnnexedWitness witness then .ok (witness.getLastD [])
  else .error witnessHasNoAnnexErr

/-- The engine state touched by witness verification and the terminal
check.  `dstack` holds the stack with its head as top of stack. -/
structure ExecEngine where
  witnessVersion : Nat
  witnessProgram : Option (List Nat)
  scripts : List (List Nat)
  scriptIdx : Nat
  dstack : List (List Nat)
  astack : List (List Nat)
  taprootCtx : Option TaprootExecutionCtx

/-- `ControlBlock` (only the field the engine reads). -/
structure ControlBlock where
  leafVersion : Nat

/-- The external taproot primitives (`VerifyTaprootKeySpend`,
`ParseControlBlock`, `VerifyTaprootLeafCommitment`, script parsing, and
`TapHash`); the spec treats them as libraries with named contracts, so
`verifyWitnessProgram` is parameterized over them. -/
structure TaprootLibs where
  verifyKeySpend : List Nat → List Nat → Bool
  parseControlBlock : List Nat → Except ScriptError ControlBlock
  verifyLeafCommitment : ControlBlock → List Nat → List Nat → Bool
  scriptParses : List Nat → Bool
  tapLeafHash : List Nat → List Nat

def engineOnlyTaprootErr : ScriptError :=
  ⟨.engineOnlyTaproot, "arkscript engine only supports taproot"⟩

def witnessProgramEmptyErr : ScriptError :=
  ⟨.witnessProgramEmpty, "witness program empty passed empty witness"⟩

def keySpendVerifyFailedErr : ScriptError :=
  ⟨.keySpendVerifyFailed, "taproot key spend verification failed"⟩

def leafCommitmentErr : ScriptError :=
  ⟨.leafCommitment, "invalid taproot leaf commitment"⟩

def discourageUpgradeableTaprootVersionErr : ScriptError :=
  ⟨.discourageUpgradeableTaprootVersion, "upgradeable leaf version"⟩

def scriptParseErr : ScriptError := ⟨.scriptParse, "script parse failure"⟩

def stackOverflowErr : ScriptError :=
  ⟨.stackOverflow, "combined stack size exceeds max allowed"⟩

def elementTooBigErr : ScriptError :=
  ⟨.elementTooBig, "element size exceeds max allowed size"⟩

/-- The annex handling of `verifyWitnessProgram`: record the annex in
the execution context when it is detected. -/
def annexedCtx (ctx : TaprootExecutionCtx) (witness : List (List Nat)) :
    TaprootExecutionCtx :=
  if isAnnexedWitness witness then
    { ctx with annex := some (witness.getLastD []) }
  else ctx

/-- The annex handling of `verifyWitnessProgram`: snip the annex off the
end of the witness stack when it is detected. -/
def witnessAfterAnnex (witness : List (List Nat)) : List (List Nat) :=
  if isAnnexedWitness witness then witness.dropLast else witness

/-- The execution context `verifyWitnessProgram` builds before branching
on keyspend versus scriptpath. -/
def witnessCtx (witness : List (List Nat)) : TaprootExecutionCtx :=
  annexedCtx (newTaprootExecutionCtx (witnessSerializeSize witness)) witness

/-- The revealed witness script of a scriptpath spend (second-to-last
element after annex removal). -/
def witnessScriptOf (witness : List (List Nat)) : List Nat :=
  (witnessAfterAnnex witness).dropLast.getLastD []

/-- The script inputs of a scriptpath spend (everything below the script
and the control block); `SetStack` makes the last slice element the top
of the stack, so the embedded head-is-top `dstack` is the reversal. -/
def witnessStackOf (witness : List (List Nat)) : List (List Nat) :=
  ((witnessAfterAnnex witness).dropLast.dropLast).reverse

/-- `verifyWitnessProgram`. -/
def verifyWitnessProgram (L : TaprootLibs) (vm : ExecEngine)
    (witness : List (List Nat)) : Except ScriptError ExecEngine :=
  match vm.witnessProgram with
  | none => .error engineOnlyTaprootErr
  | some program =>
    if vm.witnessVersion ≠ taprootWitnessVersion ∨
        program.length ≠ payToTaprootDataSize then
      .error engineOnlyTaprootErr
    else if witness.length = 0 then .error witnessProgramEmptyErr
    else if (witnessAfterAnnex witness).length = 1 then
      if L.verifyKeySpend program ((witnessAfterAnnex witness).headD []) then
        .ok { vm with
          taprootCtx := some ({ witnessCtx witness with mustSucceed := true }) }
      else .error keySpendVerifyFailedErr
    else
      match L.parseControlBlock ((witnessAfterAnnex witness).getLastD []) with
      | .error e => .error e
      | .ok controlBlock =>
        if ¬ L.verifyLeafCommitment controlBlock program
            (witnessScriptOf witness) then
          .error leafCommitmentErr
        else if controlBlock.leafVersion ≠ baseLeafVersion then
          .error discourageUpgradeableTaprootVersionErr
        else if ¬ L.scriptParses (witnessScriptOf witness) then
          .error scriptParseErr
        else if maxStackSize < (witnessStackOf witness).length then
          .error stackOverflowErr
        else if (witnessStackOf witness).any
            (fun e => maxScriptElementSize < e.length) then
          .error elementTooBigErr
        else
          .ok { vm with
            taprootCtx := some ({ witnessCtx witness with
              tapLeafHash := L.tapLeafHash (witnessScriptOf witness) })
            scripts := vm.scripts ++ [witnessScriptOf witness]
            dstack := witnessStackOf witness }

/-- Modelled from the spec: the stack boolean view — any nonzero byte is
true except a lone sign bit in the most significant byte. -/
def asBool : List Nat → Bool
  | [] => false
  | [b] => b != 0 && b != 128
  | b :: rest => if b != 0 then true else asBool rest

def scriptUnfinishedErr : ScriptError :=
  ⟨.scriptUnfinished, "error check when script unfinished"⟩

def cleanStackErr : ScriptError :=
  ⟨.cleanStack, "stack must contain exactly one item"⟩

def emptyStackErr : ScriptError :=
  ⟨.emptyStack, "stack empty at end of script execution"⟩

def evalFalseErr : ScriptError :=
  ⟨.evalFalse, "false stack entry at end of script execution"⟩

/-- `CheckErrorCondition`; the returned engine reflects the `PopBool`. -/
def CheckErrorCondition (vm : ExecEngine) (finalScript : Bool) :
    Except ScriptError ExecEngine :=
  if (vm.taprootCtx.map (·.mustSucceed)).getD false then .ok vm
  else if vm.scriptIdx < vm.scripts.length then .error scriptUnfinishedErr
  else if finalScript ∧ vm.dstack.length ≠ 1 then .error cleanStackErr
  else
    match vm.dstack with
    | [] => .error emptyStackErr
    | v :: rest =>
        if asBool v then .ok { vm with dstack := rest }
        else .error evalFalseErr

/-! ## The per-step stack bound (`Engine.Step`) -/

/-- The state touched by the stack-limit check in `Engine.Step`. -/
structure StepStacks where
  dstack : List (List Nat)
  astack : List (List Nat)
  deriving DecidableEq, Repr

/-- The limit check run right after the opcode handler in `Engine.Step`:
the combined depth of the two stacks must not exceed `MaxStackSize`. -/
def stepStackLimitCheck (s : StepStacks) : Except ScriptError StepStacks :=
  if maxStackSize < s.dstack.length + s.astack.length then
    .error stackOverflowErr
  else .ok s

/-- The script-boundary actions of `Engine.Step` that touch the stacks:
nothing, clearing the alt stack, or entering leaf execution (the alt
stack is cleared and the witness stack installed, which
`verifyWitnessProgram` bounds by `MaxStackSize`). -/
inductive BoundaryAction where
  | idle
  | clearAlt
  | enterLeaf (witnessStack : List (List Nat))

/-- Stack effect of a boundary action. -/
def applyBoundary : BoundaryAction → StepStacks → Except ScriptError StepStacks
  | .idle, s => .ok s
  | .clearAlt, s => .ok { s with astack := [] }
  | .enterLeaf w, _ =>
      if maxStackSize < w.length then .error stackOverflowErr
      else .ok { dstack := w, astack := [] }

/-- One `Engine.Step`, abstracted over the opcode handler: run the
handler, run the combined-stack-size check, then the boundary actions. -/
def stepModel (handler : StepStacks → Except ScriptError StepStacks)
    (boundary : BoundaryAction) (s : StepStacks) :
    Except ScriptError StepStacks := do
  let s₁ ← handler s
  let s₂ ← stepStackLimitCheck s₁
  applyBoundary boundary s₂

/-- A run of consecutive engine steps. -/
def runSteps
    (steps : List ((StepStacks → Except ScriptError StepStacks) × BoundaryAction))
    (s : StepStacks) : Except ScriptError StepStacks :=
  match steps with
  | [] => .ok s
  | (h, b) :: rest =>
      match stepModel h b s with
      | .error e => .error e
      | .ok s₁ => runSteps rest s₁

/-! ## Tapscript signature verification (sig-verifier source file)

Embedding of the signature verifier (`parseTaprootSigAndPubKey`,
`newTaprootSigVerifier`, `taprootSigVerifier.verifySig`,
`baseTapscriptSigVerifier.Verify`, `newBaseTapscriptSigVerifier`).
The external btcec/schnorr parsing and verification functions and
`txscript.CalcTaprootSignatureHash` are libraries (spec treats them as
named contracts); the embedding takes them as parameters, with the hash
cache, transaction, and prev-output fetcher as opaque type parameters
`H`/`T`/`P`.  The sig cache (`txscript.SigCache`) memoizes
`(sigHash, fullSigBytes, pkBytes)` triples and is embedded as an
optional list of such triples (a Go `nil` cache is `none`). -/

/-- `txscript.SigHashDefault`. -/
def sigHashDefault : Nat := 0

/-- `ErrInvalidTaprootSigLen` (the Go description interpolates the
offending length). -/
def invalidTaprootSigLenErr : ScriptError :=
  ⟨.invalidTaprootSigLen, "invalid sig len"⟩

/-- `scriptError(txscript.ErrTaprootPubkeyIsEmpty, "")`. -/
def taprootPubkeyIsEmptyErr : ScriptError := ⟨.taprootPubkeyIsEmpty, ""⟩

/-- `ErrDiscourageUpgradeablePubKeyType` (the Go description
interpolates the offending length). -/
def discourageUpgradeablePubkeyTypeErr : ScriptError :=
  ⟨.discourageUpgradeablePubkeyType, "pubkey of unsupported length was used"⟩

/-- `verifyResult`. -/
structure verifyResult where
  sigValid : Bool
  deriving DecidableEq, Repr

/-- `taprootSigVerifier`.  `PK`/`SIG` are the parsed schnorr public-key
and signature types, `H`/`T`/`P` the hash cache, transaction, and
prev-output fetcher — all external types. -/
structure taprootSigVerifier (H T P PK SIG : Type) where
  pubKey : PK
  pkBytes : List Nat
  fullSigBytes : List Nat
  sig : SIG
  hashType : Nat
  sigCache : Option (List (List Nat × List Nat × List Nat))
  hashCache : H
  tx : T
  inputIndex : Nat
  annex : Option (List Nat)
  prevOuts : P

/-- `parseTaprootSigAndPubKey`: parse the x-only key, then dispatch on
the signature length — 64 bytes means the implicit default sighash
type, 65 bytes with a nonzero final byte carries an explicit type, and
any other length is `ErrInvalidTaprootSigLen`. -/
def parseTaprootSigAndPubKey {PK SIG : Type}
    (schnorrParsePubKey : List Nat → Except ScriptError PK)
    (schnorrParseSig : List Nat → Except ScriptError SIG)
    (pkBytes rawSig : List Nat) : Except ScriptError (PK × SIG × Nat) :=
  match schnorrParsePubKey pkBytes with
  | .error e => .error e
  | .ok pubKey =>
      if rawSig.length = 64 then
        match schnorrParseSig rawSig with
        | .error e => .error e
        | .ok sig => .ok (pubKey, sig, sigHashDefault)
      else if rawSig.length = 65 ∧ rawSig.getLastD 0 ≠ 0 then
        match schnorrParseSig (rawSig.take 64) with
        | .error e => .error e
        | .ok sig => .ok (pubKey, sig, rawSig.getLastD 0)
      else .error invalidTaprootSigLenErr

/-- `newTaprootSigVerifier`. -/
def newTaprootSigVerifier {H T P PK SIG : Type}
    (schnorrParsePubKey : List Nat → Except ScriptError PK)
    (schnorrParseSig : List Nat → Except ScriptError SIG)
    (pkBytes fullSigBytes : List Nat) (tx : T) (inputIndex : Nat)
    (prevOuts : P)
    (sigCache : Option (List (List Nat × List Nat × List Nat)))
    (hashCache : H) (annex : Option (List Nat)) :
    Except ScriptError (taprootSigVerifier H T P PK SIG) :=
  match parseTaprootSigAndPubKey schnorrParsePubKey schnorrParseSig
      pkBytes fullSigBytes with
  | .error e => .error e
  | .ok (pubKey, sig, sigHashType) =>
      .ok { pubKey := pubKey
            pkBytes := pkBytes
            sig := sig
            fullSigBytes := fullSigBytes
            hashType := sigHashType
            tx := tx
            inputIndex := inputIndex
            prevOuts := prevOuts
            sigCache := sigCache
            hashCache := hashCache
            annex := annex }

/-- `taprootSigVerifier.verifySig`: with a cache attached, a hit
short-circuits the curve check and a successful check inserts its
triple; with no cache the curve check runs alone.  The parsed
`sig`/`pubKey` are deterministic images of `fullSigBytes`/`pkBytes`, so
the external BIP-340 check is abstracted as a function of `(sigHash,
fullSigBytes, pkBytes)`.  The result pairs the boolean with the updated
cache. -/
def taprootSigVerifier.verifySig {H T P PK SIG : Type}
    (schnorrVerify : List Nat → List Nat → List Nat → Bool)
    (t : taprootSigVerifier H T P PK SIG) (sigHash : List Nat) :
    Bool × Option (List (List Nat × List Nat × List Nat)) :=
  match t.sigCache with
  | some cache =>
      if (sigHash, t.fullSigBytes, t.pkBytes) ∈ cache then (true, some cache)
      else if schnorrVerify sigHash t.fullSigBytes t.pkBytes then
        (true, some ((sigHash, t.fullSigBytes, t.pkBytes) :: cache))
      else (false, some cache)
  | none =>
      if schnorrVerify sigHash t.fullSigBytes t.pkBytes then (true, none)
      else (false, none)

/-- `baseTapscriptSigVerifier`: the embedded `*taprootSigVerifier`
(field `inner`) plus the engine. -/
structure baseTapscriptSigVerifier (H T P PK SIG : Type) where
  inner : taprootSigVerifier H T P PK SIG
  vm : ExecEngine

/-- `baseTapscriptSigVerifier.Verify`: the digest is
`CalcTaprootSignatureHash(hashCache, hashType, tx, inputIndex,
prevOuts)`; the tap leaf hash and code-separator position recorded in
the engine taproot context, and the stored annex, are not among its
arguments.  On a digest-computation error the zero-valued result
(`sigValid = false`) is returned. -/
def baseTapscriptSigVerifier.Verify {H T P PK SIG : Type}
    (calcTaprootSignatureHash :
      H → Nat → T → Nat → P → Except ScriptError (List Nat))
    (schnorrVerify : List Nat → List Nat → List Nat → Bool)
    (b : baseTapscriptSigVerifier H T P PK SIG) : verifyResult :=
  match calcTaprootSignatureHash b.inner.hashCache b.inner.hashType
      b.inner.tx b.inner.inputIndex b.inner.prevOuts with
  | .error _ => ⟨false⟩
  | .ok sigHash =>
      ⟨(taprootSigVerifier.verifySig schnorrVerify b.inner sigHash).1⟩

/-- `newBaseTapscriptSigVerifier`: dispatch on the public-key length —
0 bytes is `ErrTaprootPubkeyIsEmpty`; 32 bytes builds the taproot
verifier (parse errors bubble); any other length is always
`ErrDiscourageUpgradeablePubKeyType`.  The engine fields the Go code
reads (`vm.tx`, `vm.txIdx`, `vm.prevOutFetcher`, `vm.sigCache`,
`vm.hashCache`) are passed explicitly since they are external types;
`vm.taprootCtx.annex` is read from the embedded engine state. -/
def newBaseTapscriptSigVerifier {H T P PK SIG : Type}
    (schnorrParsePubKey : List Nat → Except ScriptError PK)
    (schnorrParseSig : List Nat → Except ScriptError SIG)
    (pkBytes rawSig : List Nat) (vm : ExecEngine) (tx : T) (txIdx : Nat)
    (prevOutFetcher : P)
    (sigCache : Option (List (List Nat × List Nat × List Nat)))
    (hashCache : H) :
    Except ScriptError (baseTapscriptSigVerifier H T P PK SIG) :=
  if pkBytes.length = 0 then .error taprootPubkeyIsEmptyErr
  else if pkBytes.length = 32 then
    match newTaprootSigVerifier schnorrParsePubKey schnorrParseSig
        pkBytes rawSig tx txIdx prevOutFetcher sigCache hashCache
        ((vm.taprootCtx.map (·.annex)).getD none) with
    | .error e => .error e
    | .ok v => .ok ⟨v, vm⟩
  else .error discourageUpgradeablePubkeyTypeErr

/-- A sig cache is valid when every triple it holds verifies — the only
entries `verifySig` itself ever inserts. -/
def ValidSigCache (schnorrVerify : List Nat → List Nat → List Nat → Bool)
    (cache : Option (List (List Nat × List Nat × List Nat))) : Prop :=
  ∀ c, cache = some c → ∀ e ∈ c, schnorrVerify e.1 e.2.1 e.2.2 = true

/-! ## Helper lemmas -/

theorem popInt_encode (vm : Engine) (n : Nat) (rest : List (List Nat))
    (hn : n < 2 ^ 31) (h : vm.dstack = scriptNumEncode (n : Int) :: rest) :
    vm.popInt = .ok ((n : Int), { vm with dstack := rest }) := by
  have hb : vm.popByteArray =
      .ok (scriptNumEncode (n : Int), { vm with dstack := rest }) := by
    simp only [Engine.popByteArray, h]
  unfold Engine.popInt
  rw [hb]
  show makeScriptNum (scriptNumEncode (n : Int)) >>=
      (fun m => Except.ok (m, ({ vm with dstack := rest } : Engine))) =
    .ok ((n : Int), { vm with dstack := rest })
  rw [makeScriptNum_roundtrip n hn]
  rfl

theorem findGroupIdx_some (groups : List AssetGroup) (id : AssetID) :
    ∀ K, K < groups.length →
    ((groups.getD K default).assetID.txid = id.txid ∧
      (groups.getD K default).assetID.gidx = id.gidx) →
    (∀ j, j < K →
      ¬ ((groups.getD j default).assetID.txid = id.txid ∧
         (groups.getD j default).assetID.gidx = id.gidx)) →
    findGroupIdx groups id = some K := by
  induction groups with
  | nil => intro K hK _ _; simp at hK
  | cons g rest ih =>
      intro K hK hmatch hbefore
      cases K with
      | zero =>
          simp only [List.getD_cons_zero] at hmatch
          simp [findGroupIdx, hmatch]
      | succ K =>
          have h0 : ¬ (g.assetID.txid = id.txid ∧ g.assetID.gidx = id.gidx) := by
            have := hbefore 0 (Nat.succ_pos K)
            simpa using this
          simp only [findGroupIdx, if_neg h0]
          rw [ih K (by simpa using hK) (by simpa using hmatch)
            (fun j hj => by simpa using hbefore (j + 1) (by omega))]
          rfl

theorem findGroupIdx_none (groups : List AssetGroup) (id : AssetID)
    (h : ∀ g ∈ groups,
      ¬ (g.assetID.txid = id.txid ∧ g.assetID.gidx = id.gidx)) :
    findGroupIdx groups id = none := by
  induction groups with
  | nil => rfl
  | cons g rest ih =>
      have h0 := h g (List.mem_cons_self g rest)
      simp only [findGroupIdx, if_neg h0]
      rw [ih (fun g' hg' => h g' (List.mem_cons_of_mem g hg'))]
      rfl

/-! ## C1: `INSPECTASSETGROUPSUM` and `u64` overflow -/

/-- A packet whose single group has two inputs of `2 ^ 63` each, so the
`uint64` aggregation of its input amounts overflows. -/
def overflowPacket : AssetPacket :=
  { groups := [
      { assetID := ⟨List.replicate 32 1, 0⟩
        control := none
        metadataHash := List.replicate 32 0
        inputs := [⟨AssetInputTypeLocal, 0, [], 0, 2 ^ 63⟩,
                   ⟨AssetInputTypeLocal, 1, [], 0, 2 ^ 63⟩]
        outputs := [] }]
    inputAssets := fun _ => []
    outputAssets := fun _ => [] }

/-- C1: the claim (and the spec) requires a `u64` overflow during
`INSPECTASSETGROUPSUM` aggregation to raise an `AssetOverflow` error.
The source has no overflow check: on the packet whose input amounts sum
to `2 ^ 64` the opcode succeeds and pushes the wrapped-around sum `0`
(eight zero bytes) instead of failing.  The stack holds the two zero
operands `source = 0` and `k = 0` (both encoded as the empty string). -/
theorem inspectAssetGroupSum_overflow_wraps :
    opcodeInspectAssetGroupSum ⟨some overflowPacket, [[], []]⟩ =
      .ok ⟨some overflowPacket, [le64 0]⟩ ∧
    le64 0 = [0, 0, 0, 0, 0, 0, 0, 0] := by
  exact ⟨rfl, rfl⟩

/-! ## C3: missing asset packet -/

/-- C3: with no asset packet attached, every opcode of the asset family
(`INSPECTNUMASSETGROUPS` through `INSPECTGROUPINTENTIN`) fails with the
missing-asset-packet error (the spec kind `AssetPacketMissing`,
realized by `checkAssetPacket` before any stack operand is read: the
result is this error for every stack, including the empty one, rather
than a stack-underflow error). -/
theorem assetOpcodes_fail_without_packet (stk : List (List Nat)) :
    opcodeInspectNumAssetGroups ⟨none, stk⟩ = .error assetPacketMissingErr ∧
    opcodeInspectAssetGroupAssetID ⟨none, stk⟩ = .error assetPacketMissingErr ∧
    opcodeInspectAssetGroupCtrl ⟨none, stk⟩ = .error assetPacketMissingErr ∧
    opcodeFindAssetGroupByAssetID ⟨none, stk⟩ = .error assetPacketMissingErr ∧
    opcodeInspectAssetGroupMetadataHash ⟨none, stk⟩ =
      .error assetPacketMissingErr ∧
    opcodeInspectAssetGroupNum ⟨none, stk⟩ = .error assetPacketMissingErr ∧
    opcodeInspectAssetGroup ⟨none, stk⟩ = .error assetPacketMissingErr ∧
    opcodeInspectAssetGroupSum ⟨none, stk⟩ = .error assetPacketMissingErr ∧
    opcodeInspectOutAssetCount ⟨none, stk⟩ = .error assetPacketMissingErr ∧
    opcodeInspectOutAssetAt ⟨none, stk⟩ = .error assetPacketMissingErr ∧
    opcodeInspectOutAssetLookup ⟨none, stk⟩ = .error assetPacketMissingErr ∧
    opcodeInspectInAssetCount ⟨none, stk⟩ = .error assetPacketMissingErr ∧
    opcodeInspectInAssetAt ⟨none, stk⟩ = .error assetPacketMissingErr ∧
    opcodeInspectInAssetLookup ⟨none, stk⟩ = .error assetPacketMissingErr ∧
    opcodeInspectGroupIntentOutCount ⟨none, stk⟩ =
      .error assetPacketMissingErr ∧
    opcodeInspectGroupIntentOut ⟨none, stk⟩ = .error assetPacketMissingErr ∧
    opcodeInspectGroupIntentInCount ⟨none, stk⟩ =
      .error assetPacketMissingErr ∧
    opcodeInspectGroupIntentIn ⟨none, stk⟩ = .error assetPacketMissingErr := by
  refine ⟨rfl, rfl, rfl, rfl, rfl, rfl, rfl, rfl, rfl, rfl, rfl, rfl, rfl,
    rfl, rfl, rfl, rfl, rfl⟩

/-- Witness for C3 at the empty stack. -/
theorem assetOpcodes_fail_without_packet_witness :
    opcodeInspectNumAssetGroups ⟨none, []⟩ = .error assetPacketMissingErr ∧
    opcodeInspectGroupIntentIn ⟨none, []⟩ = .error assetPacketMissingErr :=
  ⟨(assetOpcodes_fail_without_packet []).1,
    (assetOpcodes_fail_without_packet []).2.2.2.2.2.2.2.2.2.2.2.2.2.2.2.2.2⟩

/-! ## C7: combined stack bound -/

theorem bind_ok_eq {α β : Type} (x : α) (f : α → Except ScriptError β) :
    (Except.ok x >>= f) = f x := rfl

theorem bind_error_eq {α β : Type} (e : ScriptError)
    (f : α → Except ScriptError β) :
    ((Except.error e : Except ScriptError α) >>= f) = .error e := rfl

/-- C7: `Engine.Step` checks, right after the opcode handler runs, that
the combined depth of the primary and alternate stacks is at most
`MaxStackSize` (1000) and fails with a stack-overflow error otherwise;
the later boundary actions only shrink the stacks or re-check the bound,
so every state produced by a successful step — and hence every reachable
non-error state of a run — satisfies the bound. -/
theorem step_combined_stack_bound :
    (∀ (handler : StepStacks → Except ScriptError StepStacks)
        (boundary : BoundaryAction) (s s' : StepStacks),
      stepModel handler boundary s = .ok s' →
      s'.dstack.length + s'.astack.length ≤ maxStackSize) ∧
    (∀ steps (s₀ s' : StepStacks), steps ≠ [] →
      runSteps steps s₀ = .ok s' →
      s'.dstack.length + s'.astack.length ≤ maxStackSize) := by
  have single : ∀ (handler : StepStacks → Except ScriptError StepStacks)
      (boundary : BoundaryAction) (s s' : StepStacks),
      stepModel handler boundary s = .ok s' →
      s'.dstack.length + s'.astack.length ≤ maxStackSize := by
    intro handler boundary s s' hstep
    unfold stepModel at hstep
    cases hh : handler s with
    | error e => rw [hh, bind_error_eq] at hstep; cases hstep
    | ok s₁ =>
        rw [hh, bind_ok_eq] at hstep
        unfold stepStackLimitCheck at hstep
        by_cases hc : maxStackSize < s₁.dstack.length + s₁.astack.length
        · rw [if_pos hc, bind_error_eq] at hstep; cases hstep
        · rw [if_neg hc, bind_ok_eq] at hstep
          cases boundary with
          | idle =>
              simp only [applyBoundary] at hstep
              obtain rfl : s₁ = s' := by injection hstep
              omega
          | clearAlt =>
              simp only [applyBoundary] at hstep
              obtain rfl : ({ s₁ with astack := [] } : StepStacks) = s' := by
                injection hstep
              simp only [List.length_nil]
              omega
          | enterLeaf w =>
              simp only [applyBoundary] at hstep
              by_cases hw : maxStackSize < w.length
              · rw [if_pos hw] at hstep; cases hstep
              · rw [if_neg hw] at hstep
                obtain rfl : (⟨w, []⟩ : StepStacks) = s' := by injection hstep
                simp only [List.length_nil]
                omega
  refine ⟨single, ?_⟩
  intro steps
  induction steps with
  | nil => intro s₀ s' h; exact absurd rfl h
  | cons hb rest ih =>
      intro s₀ s' _ hrun
      obtain ⟨h, b⟩ := hb
      unfold runSteps at hrun
      cases hs : stepModel h b s₀ with
      | error e => rw [hs] at hrun; cases hrun
      | ok s₁ =>
          rw [hs] at hrun
          cases rest with
          | nil =>
              simp only [runSteps] at hrun
              obtain rfl : s₁ = s' := by injection hrun
              exact single h b s₀ s₁ hs
          | cons hb₂ rest₂ =>
              exact ih s₁ s' (by simp) hrun

/-- Witness for C7: a successful concrete step with the identity
handler leaves the bound intact. -/
theorem step_combined_stack_bound_witness :
    stepModel (fun s => .ok s) .idle ⟨[[1]], []⟩ = .ok ⟨[[1]], []⟩ ∧
    (⟨[[1]], []⟩ : StepStacks).dstack.length +
      (⟨[[1]], []⟩ : StepStacks).astack.length ≤ maxStackSize :=
  ⟨rfl, step_combined_stack_bound.1 (fun s => .ok s) .idle
    ⟨[[1]], []⟩ ⟨[[1]], []⟩ rfl⟩

/-- A concrete library whose key-spend verification always succeeds. -/
def trueKeySpendLibs : TaprootLibs :=
  { verifyKeySpend := fun _ _ => true
    parseControlBlock := fun _ => .error scriptParseErr
    verifyLeafCommitment := fun _ _ _ => false
    scriptParses := fun _ => false
    tapLeafHash := fun _ => [] }

/-- A concrete taproot engine used by the witnesses. -/
def sampleExecEngine : ExecEngine :=
  { witnessVersion := 1
    witnessProgram := some (List.replicate 32 2)
    scripts := [[], []]
    scriptIdx := 0
    dstack := []
    astack := []
    taprootCtx := none }

/-! ## C9: cache state and the verification outcome -/

/-- A concrete verifier over unit external types, with a chosen cache. -/
def sampleTaprootVerifier
    (c : Option (List (List Nat × List Nat × List Nat))) :
    taprootSigVerifier Unit Unit Unit Unit Unit :=
  { pubKey := ()
    pkBytes := [3]
    fullSigBytes := [2]
    sig := ()
    hashType := 0
    sigCache := c
    hashCache := ()
    tx := ()
    inputIndex := 0
    annex := none
    prevOuts := () }

/-- C9 counterexample: the claim as stated quantifies over every initial
signature-cache content.  Seeding the cache with a triple that does not
verify (here: under a BIP-340 check that rejects everything) makes
`verifySig` answer true through the cache-hit short-circuit, while the
empty cache answers false — two runs differing only in the initial
cache contents yield different outcomes. -/
theorem verifySig_poisoned_cache_changes_outcome :
    (taprootSigVerifier.verifySig (fun _ _ _ => false)
        (sampleTaprootVerifier (some [([1], [2], [3])])) [1]).1 = true ∧
    (taprootSigVerifier.verifySig (fun _ _ _ => false)
        (sampleTaprootVerifier (some [])) [1]).1 = false :=
  ⟨rfl, rfl⟩

/-- C9 (amended): for signature caches holding only verifying triples —
the only entries the code ever inserts — `verifySig` returns the plain
BIP-340 verification result regardless of the cache state, so two runs
that differ only in such initial cache contents yield the same outcome.
(The sighash cache enters only through the external
`CalcTaprootSignatureHash`, embedded as a pure function of its
arguments.) -/
theorem verifySig_cache_transparent_when_valid
    {H T P PK SIG : Type}
    (schnorrVerify : List Nat → List Nat → List Nat → Bool)
    (t : taprootSigVerifier H T P PK SIG)
    (c₁ c₂ : Option (List (List Nat × List Nat × List Nat)))
    (sigHash : List Nat)
    (h₁ : ValidSigCache schnorrVerify c₁)
    (h₂ : ValidSigCache schnorrVerify c₂) :
    (taprootSigVerifier.verifySig schnorrVerify
        { t with sigCache := c₁ } sigHash).1 =
      (taprootSigVerifier.verifySig schnorrVerify
        { t with sigCache := c₂ } sigHash).1 ∧
    (taprootSigVerifier.verifySig schnorrVerify
        { t with sigCache := c₁ } sigHash).1 =
      schnorrVerify sigHash t.fullSigBytes t.pkBytes := by
  have key : ∀ t' : taprootSigVerifier H T P PK SIG,
      ValidSigCache schnorrVerify t'.sigCache →
      (taprootSigVerifier.verifySig schnorrVerify t' sigHash).1 =
        schnorrVerify sigHash t'.fullSigBytes t'.pkBytes := by
    intro t' hc
    unfold taprootSigVerifier.verifySig
    cases hsc : t'.sigCache with
    | none =>
        cases hv : schnorrVerify sigHash t'.fullSigBytes t'.pkBytes <;>
          simp [hv]
    | some cache =>
        have hval := hc cache hsc
        by_cases hm : (sigHash, t'.fullSigBytes, t'.pkBytes) ∈ cache
        · have hok := hval _ hm
          simp only [] at hok
          simp [hm, hok]
        · cases hv : schnorrVerify sigHash t'.fullSigBytes t'.pkBytes <;>
            simp [hm, hv]
  exact ⟨(key { t with sigCache := c₁ } h₁).trans
      (key { t with sigCache := c₂ } h₂).symm,
    key { t with sigCache := c₁ } h₁⟩

/-- Witness for C9: the empty cache and a one-entry valid cache agree. -/
theorem verifySig_cache_transparent_when_valid_witness :
    ValidSigCache (fun _ _ _ => true) (some [([1], [2], [3])]) ∧
    ((taprootSigVerifier.verifySig (fun _ _ _ => true)
        { sampleTaprootVerifier none with sigCache := none } [1]).1 =
      (taprootSigVerifier.verifySig (fun _ _ _ => true)
        { sampleTaprootVerifier none with
          sigCache := some [([1], [2], [3])] } [1]).1 ∧
    (taprootSigVerifier.verifySig (fun _ _ _ => true)
        { sampleTaprootVerifier none with sigCache := none } [1]).1 =
      (fun _ _ _ => true) [1] (sampleTaprootVerifier none).fullSigBytes
        (sampleTaprootVerifier none).pkBytes) :=
  ⟨fun _ _ _ _ => rfl,
    verifySig_cache_transparent_when_valid (fun _ _ _ => true)
      (sampleTaprootVerifier none) none (some [([1], [2], [3])]) [1]
      (fun _ hc => by cases hc) (fun _ _ _ _ => rfl)⟩

/-! ## C2: the digest and the taproot execution context -/

/-- C2: the spec — and the code's own comments, which record the leaf
hash "for signature validation later" and the annex "to compute the
sighash later" — require the tapscript sighash to be parameterized by
the leaf hash, code-separator position and annex.  But
`baseTapscriptSigVerifier.Verify` computes the digest as
`CalcTaprootSignatureHash(hashCache, hashType, tx, inputIndex,
prevOuts)`, so the verification outcome is identical for any two engine
states — in particular ones differing only in the recorded leaf hash or
code-separator position — and for any two annex values: the recorded
context never reaches the digest, contradicting the claim. -/
theorem tapscript_digest_ignores_leaf_codesep_annex
    {H T P PK SIG : Type}
    (calcTaprootSignatureHash :
      H → Nat → T → Nat → P → Except ScriptError (List Nat))
    (schnorrVerify : List Nat → List Nat → List Nat → Bool)
    (t : taprootSigVerifier H T P PK SIG) (vm₁ vm₂ : ExecEngine)
    (annex₁ annex₂ : Option (List Nat)) :
    baseTapscriptSigVerifier.Verify calcTaprootSignatureHash schnorrVerify
        ⟨t, vm₁⟩ =
      baseTapscriptSigVerifier.Verify calcTaprootSignatureHash schnorrVerify
        ⟨t, vm₂⟩ ∧
    baseTapscriptSigVerifier.Verify calcTaprootSignatureHash schnorrVerify
        ⟨{ t with annex := annex₁ }, vm₁⟩ =
      baseTapscriptSigVerifier.Verify calcTaprootSignatureHash schnorrVerify
        ⟨{ t with annex := annex₂ }, vm₁⟩ :=
  ⟨rfl, rfl⟩

/-! ## C5: public key size rules -/

/-- C5 counterexample: the claim says unknown key types pass through as
success unless strict — but the code has no strict flag and always
rejects: a 33-byte key yields the upgradeable-pubkey-type error. -/
theorem tapscriptPubKey_unknown_length_rejected :
    newBaseTapscriptSigVerifier
      (fun _ => (.ok () : Except ScriptError Unit))
      (fun _ => (.ok () : Except ScriptError Unit))
      (List.replicate 33 7) [] sampleExecEngine () 0 () none () =
      .error discourageUpgradeablePubkeyTypeErr := rfl

/-- C5 (amended): `newBaseTapscriptSigVerifier` dispatches on the
public-key length — 0 bytes is the `TaprootPubkeyIsEmpty` error; a
32-byte key is parsed as BIP-340 x-only and verification proceeds
(parse failures bubble up); any other length always yields the
upgradeable-pubkey-type error — unknown key types are never passed
through as success, and the engine has no strict flag. -/
theorem tapscriptPubKey_length_dispatch
    {H T P PK SIG : Type}
    (schnorrParsePubKey : List Nat → Except ScriptError PK)
    (schnorrParseSig : List Nat → Except ScriptError SIG)
    (pkBytes rawSig : List Nat) (vm : ExecEngine) (tx : T) (txIdx : Nat)
    (prevOutFetcher : P)
    (sigCache : Option (List (List Nat × List Nat × List Nat)))
    (hashCache : H) :
    (pkBytes.length = 0 →
      newBaseTapscriptSigVerifier schnorrParsePubKey schnorrParseSig
        pkBytes rawSig vm tx txIdx prevOutFetcher sigCache hashCache =
        .error taprootPubkeyIsEmptyErr) ∧
    (pkBytes.length = 32 →
      (∀ v, newTaprootSigVerifier schnorrParsePubKey schnorrParseSig
          pkBytes rawSig tx txIdx prevOutFetcher sigCache hashCache
          ((vm.taprootCtx.map (·.annex)).getD none) = .ok v →
        newBaseTapscriptSigVerifier schnorrParsePubKey schnorrParseSig
          pkBytes rawSig vm tx txIdx prevOutFetcher sigCache hashCache =
          .ok ⟨v, vm⟩) ∧
      (∀ e, newTaprootSigVerifier schnorrParsePubKey schnorrParseSig
          pkBytes rawSig tx txIdx prevOutFetcher sigCache hashCache
          ((vm.taprootCtx.map (·.annex)).getD none) = .error e →
        newBaseTapscriptSigVerifier schnorrParsePubKey schnorrParseSig
          pkBytes rawSig vm tx txIdx prevOutFetcher sigCache hashCache =
          .error e)) ∧
    (pkBytes.length ≠ 0 → pkBytes.length ≠ 32 →
      newBaseTapscriptSigVerifier schnorrParsePubKey schnorrParseSig
        pkBytes rawSig vm tx txIdx prevOutFetcher sigCache hashCache =
        .error discourageUpgradeablePubkeyTypeErr) := by
  refine ⟨?_, ?_, ?_⟩
  · intro h0
    unfold newBaseTapscriptSigVerifier
    rw [if_pos h0]
  · intro h32
    constructor
    · intro v hv
      unfold newBaseTapscriptSigVerifier
      rw [if_neg (by omega), if_pos h32, hv]
    · intro e he
      unfold newBaseTapscriptSigVerifier
      rw [if_neg (by omega), if_pos h32, he]
  · intro h0 h32
    unfold newBaseTapscriptSigVerifier
    rw [if_neg h0, if_neg h32]

/-- Witness for C5 at the empty public key. -/
theorem tapscriptPubKey_length_dispatch_witness :
    ([] : List Nat).length = 0 ∧
    newBaseTapscriptSigVerifier
      (fun _ => (.ok () : Except ScriptError Unit))
      (fun _ => (.ok () : Except ScriptError Unit))
      [] [] sampleExecEngine () 0 () none () =
      .error taprootPubkeyIsEmptyErr :=
  ⟨rfl,
    (tapscriptPubKey_length_dispatch
      (fun _ => (.ok () : Except ScriptError Unit))
      (fun _ => (.ok () : Except ScriptError Unit))
      [] [] sampleExecEngine () 0 () none ()).1 rfl⟩

/-! ## C6: sig-ops budget -/

theorem annexedCtx_sigOpsBudget (c : TaprootExecutionCtx)
    (w : List (List Nat)) : (annexedCtx c w).sigOpsBudget = c.sigOpsBudget := by
  unfold annexedCtx
  split <;> rfl

theorem witnessCtx_sigOpsBudget (w : List (List Nat)) :
    (witnessCtx w).sigOpsBudget = 50 + (witnessSerializeSize w : Int) := by
  unfold witnessCtx
  rw [annexedCtx_sigOpsBudget]
  rfl

/-- C6: the sig-ops budget of a fresh taproot execution context is 50
plus the serialized size of the input's witness; every successful
`verifyWitnessProgram` installs a context with exactly that budget; and
`tallysigOp` — invoked by every signature-verifying opcode — decrements
the budget by exactly 50, failing with the max-sig-ops error exactly
when the budget would drop below zero. -/
theorem sigOpsBudget_semantics :
    (∀ w : Int, (newTaprootExecutionCtx w).sigOpsBudget = 50 + w) ∧
    (∀ t : TaprootExecutionCtx, t.sigOpsBudget - 50 < 0 →
      tallysigOp t = .error taprootMaxSigOpsErr) ∧
    (∀ t : TaprootExecutionCtx, 0 ≤ t.sigOpsBudget - 50 →
      tallysigOp t = .ok { t with sigOpsBudget := t.sigOpsBudget - 50 }) ∧
    (∀ (L : TaprootLibs) (vm vm' : ExecEngine) (witness : List (List Nat)),
      verifyWitnessProgram L vm witness = .ok vm' →
      ∀ ctx, vm'.taprootCtx = some ctx →
        ctx.sigOpsBudget = 50 + (witnessSerializeSize witness : Int)) := by
  refine ⟨fun w => rfl, ?_, ?_, ?_⟩
  · intro t ht
    unfold tallysigOp
    rw [if_pos (by simp only [sigOpsDelta]; omega)]
  · intro t ht
    unfold tallysigOp
    rw [if_neg (by simp only [sigOpsDelta]; omega)]
    rfl
  · intro L vm vm' witness h ctx hctx
    unfold verifyWitnessProgram at h
    cases hwp : vm.witnessProgram with
    | none => rw [hwp] at h; cases h
    | some program =>
        rw [hwp] at h
        dsimp only at h
        by_cases h1 : vm.witnessVersion ≠ taprootWitnessVersion ∨
            program.length ≠ payToTaprootDataSize
        · rw [if_pos h1] at h; cases h
        · rw [if_neg h1] at h
          by_cases h2 : witness.length = 0
          · rw [if_pos h2] at h; cases h
          · rw [if_neg h2] at h
            by_cases h3 : (witnessAfterAnnex witness).length = 1
            · rw [if_pos h3] at h
              by_cases h4 : L.verifyKeySpend program
                  ((witnessAfterAnnex witness).headD []) = true
              · rw [if_pos h4] at h
                injection h with h'
                subst h'
                simp only [] at hctx
                injection hctx with h''
                subst h''
                show (witnessCtx witness).sigOpsBudget = _
                exact witnessCtx_sigOpsBudget witness
              · rw [if_neg h4] at h; cases h
            · rw [if_neg h3] at h
              cases hpc : L.parseControlBlock
                  ((witnessAfterAnnex witness).getLastD []) with
              | error e => rw [hpc] at h; dsimp only at h; cases h
              | ok controlBlock =>
                  rw [hpc] at h
                  dsimp only at h
                  by_cases h5 : L.verifyLeafCommitment controlBlock program
                      (witnessScriptOf witness) = true
                  · rw [if_neg (not_not_intro h5)] at h
                    by_cases h6 : controlBlock.leafVersion = baseLeafVersion
                    · rw [if_neg (not_not_intro h6)] at h
                      by_cases h7 : L.scriptParses (witnessScriptOf witness) = true
                      · rw [if_neg (not_not_intro h7)] at h
                        by_cases h8 : maxStackSize < (witnessStackOf witness).length
                        · rw [if_pos h8] at h; cases h
                        · rw [if_neg h8] at h
                          by_cases h9 : (witnessStackOf witness).any
                              (fun e => maxScriptElementSize < e.length) = true
                          · rw [if_pos h9] at h; cases h
                          · rw [if_neg h9] at h
                            injection h with h'
                            subst h'
                            simp only [] at hctx
                            injection hctx with h''
                            subst h''
                            show (witnessCtx witness).sigOpsBudget = _
                            exact witnessCtx_sigOpsBudget witness
                      · rw [if_pos h7] at h; cases h
                    · rw [if_pos h6] at h; cases h
                  · rw [if_pos h5] at h; cases h

/-- Witness for C6: `tallysigOp` errors at budget 49 and succeeds at
budget 50. -/
theorem sigOpsBudget_semantics_witness :
    ((⟨none, 0, [], 49, false⟩ : TaprootExecutionCtx).sigOpsBudget - 50 < 0 ∧
      tallysigOp ⟨none, 0, [], 49, false⟩ = .error taprootMaxSigOpsErr) ∧
    ((0 : Int) ≤ (⟨none, 0, [], 50, false⟩ : TaprootExecutionCtx).sigOpsBudget - 50 ∧
      tallysigOp ⟨none, 0, [], 50, false⟩ = .ok ⟨none, 0, [], 0, false⟩) :=
  ⟨⟨by decide, sigOpsBudget_semantics.2.1 ⟨none, 0, [], 49, false⟩ (by decide)⟩,
    ⟨by decide, sigOpsBudget_semantics.2.2.1 ⟨none, 0, [], 50, false⟩ (by decide)⟩⟩

/-! ## C4: keyspend bypass -/

/-- C4: when the witness after annex removal is a single element and
BIP-340 key-spend verification of that element succeeds,
`verifyWitnessProgram` accepts with the must-succeed flag set and no
leaf script appended, and the terminal `CheckErrorCondition` then passes
for every stack content and both values of the final-script flag. -/
theorem keyspend_bypass
    (L : TaprootLibs) (vm : ExecEngine) (witness : List (List Nat))
    (program : List Nat)
    (hprog : vm.witnessProgram = some program)
    (hver : vm.witnessVersion = taprootWitnessVersion)
    (hlen32 : program.length = payToTaprootDataSize)
    (h1 : (witnessAfterAnnex witness).length = 1)
    (hks : L.verifyKeySpend program ((witnessAfterAnnex witness).headD []) =
      true) :
    ∃ ctx : TaprootExecutionCtx,
      verifyWitnessProgram L vm witness =
        .ok { vm with taprootCtx := some ctx } ∧
      ctx.mustSucceed = true ∧
      ({ vm with taprootCtx := some ctx } : ExecEngine).scripts =
        vm.scripts ∧
      (∀ (stk : List (List Nat)) (finalScript : Bool),
        CheckErrorCondition
          { vm with taprootCtx := some ctx, dstack := stk } finalScript =
          .ok { vm with taprootCtx := some ctx, dstack := stk }) := by
  have hw0 : ¬ (witness.length = 0) := by
    intro hcon
    have : witness = [] := List.length_eq_zero.mp hcon
    subst this
    simp [witnessAfterAnnex, isAnnexedWitness] at h1
  refine ⟨{ witnessCtx witness with mustSucceed := true }, ?_, rfl, rfl, ?_⟩
  · unfold verifyWitnessProgram
    rw [hprog]
    dsimp only
    rw [if_neg (by simp [hver, hlen32])]
    rw [if_neg hw0, if_pos h1, if_pos hks]
  · intro stk finalScript
    unfold CheckErrorCondition
    rw [if_pos (by simp)]

/-- Witness for C4 at a concrete one-element witness with an
always-succeeding key-spend verifier. -/
theorem keyspend_bypass_witness :
    (witnessAfterAnnex [[9]]).length = 1 ∧
    ∃ ctx : TaprootExecutionCtx,
      verifyWitnessProgram trueKeySpendLibs sampleExecEngine [[9]] =
        .ok { sampleExecEngine with taprootCtx := some ctx } ∧
      ctx.mustSucceed = true ∧
      ({ sampleExecEngine with taprootCtx := some ctx } : ExecEngine).scripts =
        sampleExecEngine.scripts ∧
      (∀ (stk : List (List Nat)) (finalScript : Bool),
        CheckErrorCondition
          { sampleExecEngine with taprootCtx := some ctx, dstack := stk }
          finalScript =
          .ok { sampleExecEngine with
            taprootCtx := some ctx, dstack := stk }) :=
  ⟨by decide,
    keyspend_bypass trueKeySpendLibs sampleExecEngine [[9]]
      (List.replicate 32 2) rfl rfl (by decide) (by decide) rfl⟩

/-! ## C10: a single-element witness is never an annex -/

/-- C10: annex detection requires at least two witness elements, so a
one-element witness — even one whose first byte is the annex tag 0x50 —
is never stripped: it is passed whole to key-spend verification and the
recorded annex stays `none`. -/
theorem singleElement_witness_not_annex
    (L : TaprootLibs) (vm : ExecEngine) (program e : List Nat)
    (hprog : vm.witnessProgram = some program)
    (hver : vm.witnessVersion = taprootWitnessVersion)
    (hlen32 : program.length = payToTaprootDataSize)
    (hne : e ≠ []) (htag : e.headD 0 = taprootAnnexTag)
    (hks : L.verifyKeySpend program e = true) :
    (∀ w : List (List Nat), w.length < 2 → isAnnexedWitness w = false) ∧
    isAnnexedWitness [e] = false ∧
    witnessAfterAnnex [e] = [e] ∧
    ∃ ctx : TaprootExecutionCtx,
      verifyWitnessProgram L vm [e] =
        .ok { vm with taprootCtx := some ctx } ∧
      ctx.annex = none ∧ ctx.mustSucceed = true := by
  refine ⟨?_, rfl, rfl, ?_⟩
  · intro w hw
    unfold isAnnexedWitness
    rw [if_pos hw]
  · refine ⟨{ witnessCtx [e] with mustSucceed := true }, ?_, rfl, rfl⟩
    unfold verifyWitnessProgram
    rw [hprog]
    dsimp only
    rw [if_neg (by simp [hver, hlen32])]
    rw [if_neg (by simp)]
    rw [if_pos (show (witnessAfterAnnex [e]).length = 1 from rfl)]
    rw [show ((witnessAfterAnnex [e]).headD []) = e from rfl, if_pos hks]

/-- Witness for C10 at the one-element witness `[0x50, 1]` starting with
the annex tag. -/
theorem singleElement_witness_not_annex_witness :
    ([80, 1] : List Nat) ≠ [] ∧
    (isAnnexedWitness [[80, 1]] = false ∧
      witnessAfterAnnex [[80, 1]] = [[80, 1]] ∧
      ∃ ctx : TaprootExecutionCtx,
        verifyWitnessProgram trueKeySpendLibs sampleExecEngine [[80, 1]] =
          .ok { sampleExecEngine with taprootCtx := some ctx } ∧
        ctx.annex = none ∧ ctx.mustSucceed = true) :=
  ⟨by decide,
    (singleElement_witness_not_annex trueKeySpendLibs sampleExecEngine
      (List.replicate 32 2) [80, 1] rfl rfl (by decide) (by decide)
      (by decide) rfl).2⟩

/-! ## C8: FINDASSETGROUPBYASSETID inverts INSPECTASSETGROUPASSETID -/

theorem getD_mem {α : Type} [Inhabited α] (l : List α) (n : Nat)
    (h : n < l.length) : l.getD n default ∈ l := by
  induction l generalizing n with
  | nil => simp at h
  | cons a t ih =>
      cases n with
      | zero => simp [List.getD_cons_zero]
      | succ n =>
          simp only [List.getD_cons_succ]
          exact List.mem_cons_of_mem a (ih n (by simpa using h))

theorem AssetID.eq_of_parts {a b : AssetID} (h1 : a.txid = b.txid)
    (h2 : a.gidx = b.gidx) : a = b := by
  cases a; cases b; simp_all

/-- Well-formedness guaranteed by the data model: txids are `[32]byte`
and group indices are `uint16`. -/
def WFPacket (p : AssetPacket) : Prop :=
  ∀ g ∈ p.groups, g.assetID.txid.length = 32 ∧ g.assetID.gidx < 65536

theorem popAssetID_encode (p : AssetPacket) (id : AssetID)
    (rest : List (List Nat)) (hlen : id.txid.length = 32)
    (hg : id.gidx < 65536) :
    popAssetID ⟨some p, scriptNumEncode (id.gidx : Int) :: id.txid :: rest⟩ =
      .ok (id, ⟨some p, rest⟩) := by
  unfold popAssetID
  rw [popInt_encode ⟨some p, scriptNumEncode (id.gidx : Int) :: id.txid :: rest⟩
    id.gidx (id.txid :: rest) (by omega) rfl, bind_ok_eq]
  dsimp only
  rw [show (⟨some p, id.txid :: rest⟩ : Engine).popByteArray =
    .ok (id.txid, ⟨some p, rest⟩) from rfl, bind_ok_eq]
  dsimp only
  rw [if_neg (by rw [hlen]; omega)]
  have hmod : ((id.gidx : Int) % 65536).toNat = id.gidx := by
    rw [Int.emod_eq_of_lt (Int.natCast_nonneg _) (by exact_mod_cast hg)]
    simp
  rw [hmod]

/-- C8: for an attached packet and an in-range group index `K` whose
asset id is non-zero and unique, running `FINDASSETGROUPBYASSETID` on
the `(txid, group-index)` pair pushed by `INSPECTASSETGROUPASSETID(K)`
pushes `K` itself (restoring the original stack); for an id matching no
group, the find opcode pushes the single script number `-1`. -/
theorem findAssetGroup_rightInverse
    (p : AssetPacket) (K : Nat) (rest : List (List Nat))
    (hwf : WFPacket p)
    (hK : K < p.groups.length) (hK31 : K < 2 ^ 31)
    (hnz : ¬ ((p.groups.getD K default).assetID.txid = List.replicate 32 0 ∧
      (p.groups.getD K default).assetID.gidx = 0))
    (huniq : ∀ j, j < p.groups.length → j ≠ K →
      (p.groups.getD j default).assetID ≠ (p.groups.getD K default).assetID) :
    (opcodeInspectAssetGroupAssetID
        ⟨some p, scriptNumEncode (K : Int) :: rest⟩ =
      .ok ⟨some p,
        scriptNumEncode ((p.groups.getD K default).assetID.gidx : Int) ::
          (p.groups.getD K default).assetID.txid :: rest⟩ ∧
      opcodeFindAssetGroupByAssetID
        ⟨some p,
          scriptNumEncode ((p.groups.getD K default).assetID.gidx : Int) ::
            (p.groups.getD K default).assetID.txid :: rest⟩ =
      .ok ⟨some p, scriptNumEncode (K : Int) :: rest⟩) ∧
    (∀ id : AssetID, id.txid.length = 32 → id.gidx < 65536 →
      (∀ g ∈ p.groups,
        ¬ (g.assetID.txid = id.txid ∧ g.assetID.gidx = id.gidx)) →
      opcodeFindAssetGroupByAssetID
        ⟨some p, scriptNumEncode (id.gidx : Int) :: id.txid :: rest⟩ =
      .ok ⟨some p, scriptNumEncode (-1) :: rest⟩) := by
  have hwfK := hwf _ (getD_mem p.groups K hK)
  have hcgi : checkGroupIndex p (K : Int) = .ok () := by
    unfold checkGroupIndex
    rw [if_neg]
    push_neg
    exact ⟨Int.natCast_nonneg K, by exact_mod_cast hK⟩
  refine ⟨⟨?_, ?_⟩, ?_⟩
  · -- INSPECTASSETGROUPASSETID pushes the id of group K
    unfold opcodeInspectAssetGroupAssetID
    rw [show checkAssetPacket ⟨some p, scriptNumEncode (K : Int) :: rest⟩ =
      .ok p from rfl, bind_ok_eq]
    dsimp only
    rw [popInt_encode ⟨some p, scriptNumEncode (K : Int) :: rest⟩ K rest
      hK31 rfl, bind_ok_eq]
    dsimp only
    rw [hcgi, bind_ok_eq]
    rw [show ((K : Int)).toNat = K by simp]
    rfl
  · -- FINDASSETGROUPBYASSETID scans back to K
    have hfind : findGroupIdx p.groups (p.groups.getD K default).assetID =
        some K := by
      refine findGroupIdx_some p.groups _ K hK ⟨rfl, rfl⟩ ?_
      intro j hj hcon
      exact huniq j (hj.trans hK) (Nat.ne_of_lt hj)
        (AssetID.eq_of_parts hcon.1 hcon.2)
    unfold opcodeFindAssetGroupByAssetID
    rw [show checkAssetPacket ⟨some p,
      scriptNumEncode ((p.groups.getD K default).assetID.gidx : Int) ::
        (p.groups.getD K default).assetID.txid :: rest⟩ = .ok p from rfl,
      bind_ok_eq]
    dsimp only
    rw [popAssetID_encode p (p.groups.getD K default).assetID rest
      hwfK.1 hwfK.2, bind_ok_eq]
    rw [hfind]
    rfl
  · -- an id matching no group scans to -1
    intro id hidlen hidg hnomatch
    have hfind : findGroupIdx p.groups id = none :=
      findGroupIdx_none p.groups id hnomatch
    unfold opcodeFindAssetGroupByAssetID
    rw [show checkAssetPacket ⟨some p,
      scriptNumEncode (id.gidx : Int) :: id.txid :: rest⟩ = .ok p from rfl,
      bind_ok_eq]
    dsimp only
    rw [popAssetID_encode p id rest hidlen hidg, bind_ok_eq]
    rw [hfind]
    rfl

/-- A one-group packet used by the C8 witness. -/
def samplePacket : AssetPacket :=
  { groups := [
      { assetID := ⟨List.replicate 32 5, 7⟩
        control := none
        metadataHash := List.replicate 32 0
        inputs := []
        outputs := [] }]
    inputAssets := fun _ => []
    outputAssets := fun _ => [] }

/-- Witness for C8 on a concrete one-group packet. -/
theorem findAssetGroup_rightInverse_witness :
    (0 : Nat) < samplePacket.groups.length ∧
    opcodeInspectAssetGroupAssetID
        ⟨some samplePacket, scriptNumEncode ((0 : Nat) : Int) :: []⟩ =
      .ok ⟨some samplePacket,
        scriptNumEncode
            ((samplePacket.groups.getD 0 default).assetID.gidx : Int) ::
          (samplePacket.groups.getD 0 default).assetID.txid :: []⟩ ∧
    opcodeFindAssetGroupByAssetID
        ⟨some samplePacket,
          scriptNumEncode
              ((samplePacket.groups.getD 0 default).assetID.gidx : Int) ::
            (samplePacket.groups.getD 0 default).assetID.txid :: []⟩ =
      .ok ⟨some samplePacket, scriptNumEncode ((0 : Nat) : Int) :: []⟩ := by
  have h := (findAssetGroup_rightInverse samplePacket 0 []
    (by
      intro g hg
      simp only [samplePacket, List.mem_singleton] at hg
      subst hg
      exact ⟨by decide, by decide⟩)
    (by decide) (by decide)
    (by
      intro hcon
      have := hcon.2
      simp [samplePacket] at this)
    (by
      intro j hj hne
      simp only [samplePacket, List.length_singleton] at hj
      exact absurd (by omega) hne)).1
  exact ⟨by decide, h.1, h.2⟩

end Introspector
